import Mathlib

/-!
Shallow embedding of the scheduling-consistency engine of this repository
(src/controllers/meetingController.js, src/controllers/bookingController.js,
src/controllers/userController.js and the mongoose models in src/models/),
together with theorems settling the specification claims about it.

Modelling conventions:
* Mongo ObjectIds and emails are `String`; document collections are lists in
  fetch order (the underlying fetch order is unspecified, so list order stands
  in for it).
* Calendar dates are day ordinals (`Nat`) and wall-clock times are minutes
  (`Nat`); `new Date(date + "T" + time)` instants are compared through
  `date * 1440 + minutes`, which matches naive local-time `Date` comparison
  (JS `Date` normalises hour/minute overflow into the day).
* Statuses stay the literal strings the code compares against
  ("pending", "accepted", "rejected", "cancelled", "canceled", ...).
* Timestamps that only record when a write happened (`createdAt`,
  `updatedAt`) and fields no claim touches (`password`, `bannerSettings`)
  are omitted.
-/

namespace SchedulingEngine

/-- Availability slot (`slotSchema` in the User model): wall-clock strings,
`""` meaning an unspecified bound. -/
structure Slot where
  startTime : String
  endTime : String
deriving DecidableEq

/-- One weekday entry of a user's availability (`availabilitySchema`). -/
structure DayAvailability where
  day : String
  isAvailable : Bool
  slots : List Slot
deriving DecidableEq

/-- A user record (the fields of `userSchema` read by the engine). -/
structure User where
  id : String
  email : String
  availability : List DayAvailability
deriving DecidableEq

/-- A participant entry embedded in a meeting (`participantSchema`). -/
structure Participant where
  userId : Option String
  email : String
  status : String
  responseAt : Option Nat
deriving DecidableEq

/-- A meeting document (`meetingSchema`). -/
structure Meeting where
  id : String
  hostId : String
  title : String
  description : String
  date : Nat
  startTime : Nat
  endTime : Nat
  duration : Nat
  timezone : String
  meetingLink : String
  status : String
  isActive : Bool
  participants : List Participant
deriving DecidableEq

/-- A meeting invitation document (`meetingInvitationSchema`). -/
structure Invitation where
  id : String
  meetingId : String
  userId : Option String
  email : String
  status : String
deriving DecidableEq

/-- A denormalized dashboard entry (`meetingItemSchema`); `invitationId` is
the extra key `refreshBookings` attaches to invitation-derived entries. -/
structure MeetingItem where
  meetingId : String
  title : String
  date : Nat
  startTime : Nat
  endTime : Nat
  status : String
  hostId : String
  isActive : Bool
  invitationId : Option String
deriving DecidableEq

/-- A per-user booking dashboard document (`bookingSchema`). -/
structure Booking where
  userId : String
  upcomingMeetings : List MeetingItem
  pendingMeetings : List MeetingItem
  canceledMeetings : List MeetingItem
  pastMeetings : List MeetingItem
deriving DecidableEq

/-- The persistent store the controllers query and mutate. -/
structure DB where
  users : List User
  meetings : List Meeting
  invitations : List Invitation
  bookings : List Booking
deriving DecidableEq

/-- `User.findOne({ email })`. -/
def findUserByEmail (db : DB) (email : String) : Option User :=
  db.users.find? (fun u => u.email == email)

/-- `User.findById(id)`. -/
def findUserById (db : DB) (id : String) : Option User :=
  db.users.find? (fun u => u.id == id)

/-- `Meeting.findById(id)`. -/
def findMeetingById (db : DB) (id : String) : Option Meeting :=
  db.meetings.find? (fun m => m.id == id)

/-- JS `userId.includes("@")`: the identity string contains an `@`. -/
def looksLikeEmail (s : String) : Bool :=
  s.data.contains '@'

/-- JS `email.toLowerCase()` (also the `lowercase: true` schema option). -/
def lowercase (s : String) : String :=
  String.mk (s.data.map Char.toLower)

/-- The overlap comparison `checkTimeConflict` applies to each candidate
meeting (meetingController.js lines 490-494).  Both windows sit on the same
calendar date (the fetch filters on exact date equality), so the instants
reduce to minutes of day. -/
def overlapCheck (newStart newEnd mStart mEnd : Nat) : Bool :=
  (decide (newStart ≥ mStart) && decide (newStart < mEnd)) ||
  (decide (newEnd > mStart) && decide (newEnd ≤ mEnd)) ||
  (decide (newStart ≤ mStart) && decide (newEnd ≥ mEnd))

/-- The Mongo filter of `checkTimeConflict` (lines 456-471).  Note the two
dotted-path conditions `participants.userId` / `participants.status` may be
satisfied by different array elements, which is Mongo's semantics for
non-`$elemMatch` filters. -/
def conflictQueryMatch (uid : String) (date : Nat) (excludeMeetingId : Option String)
    (m : Meeting) : Bool :=
  m.date == date &&
  ((m.participants.any (fun p => p.userId == some uid) &&
    m.participants.any (fun p => p.status == "accepted")) ||
   m.hostId == uid) &&
  (match excludeMeetingId with
   | some ex => !(m.id == ex)
   | none => true)

/-- `checkTimeConflict(userId, date, startTime, endTime, excludeMeetingId)`
(meetingController.js lines 436-502).  `userId` may be an id or an email
(detected by the `@` character); an unresolvable email returns `none`. -/
def checkTimeConflict (db : DB) (userId : String) (date startTime endTime : Nat)
    (excludeMeetingId : Option String) : Option Meeting :=
  let resolved : Option String :=
    if looksLikeEmail userId then (findUserByEmail db userId).map (fun u => u.id)
    else some userId
  match resolved with
  | none => none
  | some uid =>
    let userMeetings := db.meetings.filter (conflictQueryMatch uid date excludeMeetingId)
    userMeetings.find? (fun m => overlapCheck startTime endTime m.startTime m.endTime)

/-- The dashboard bucket a processed meeting lands in. -/
inductive Bucket where
  | upcoming
  | pending
  | canceled
  | past
deriving DecidableEq

/-- The past test of `updateUserBookings` (lines 537-556): the meeting date
is before today, or the meeting end instant is before the current instant. -/
def isPastMeeting (nowDate nowMin : Nat) (m : Meeting) : Bool :=
  decide (m.date < nowDate) ||
  decide (m.date * 1440 + m.endTime < nowDate * 1440 + nowMin)

/-- The four-way categorization of `updateUserBookings` (lines 589-602),
first matching branch wins. -/
def classifyMeeting (isPast : Bool) (meetingStatus participantStatus : String)
    (isHost : Bool) : Option Bucket :=
  if isPast then some Bucket.past
  else if meetingStatus == "cancelled" || participantStatus == "rejected" then
    some Bucket.canceled
  else if participantStatus == "pending" && !isHost then some Bucket.pending
  else if participantStatus == "accepted" || isHost then some Bucket.upcoming
  else none

/-- The `$or` fetch shared by `updateUserBookings` (lines 511-516) and
`refreshBookings` (bookingController.js lines 327-332): user is host or a
participant by id. -/
def involvesUser (uid : String) (m : Meeting) : Bool :=
  m.hostId == uid || m.participants.any (fun p => p.userId == some uid)

/-- The denormalized snapshot `updateUserBookings` pushes (lines 578-587);
it carries no `invitationId` key. -/
def mkMeetingItem (m : Meeting) (status : String) : MeetingItem :=
  { meetingId := m.id, title := m.title, date := m.date, startTime := m.startTime,
    endTime := m.endTime, status := status, hostId := m.hostId,
    isActive := m.isActive, invitationId := none }

/-- One iteration of the meeting loop of `updateUserBookings` (lines
534-607): find the user's participant entry by id or email, skip when
absent, otherwise classify. -/
def bucketOfMeeting (uid userEmail : String) (nowDate nowMin : Nat) (m : Meeting) :
    Option (Bucket × MeetingItem) :=
  match m.participants.find? (fun p => p.userId == some uid || p.email == userEmail) with
  | none => none
  | some pr =>
    match classifyMeeting (isPastMeeting nowDate nowMin m) m.status pr.status
        (m.hostId == uid) with
    | some b => some (b, mkMeetingItem m pr.status)
    | none => none

/-- `booking.save()` after `Booking.findOne({ userId })` or
`new Booking(...)` (lines 609-634): full replacement of the user's booking
document, creating it when absent. -/
def saveBooking (bs : List Booking) (b : Booking) : List Booking :=
  if bs.any (fun x => x.userId == b.userId) then
    bs.map (fun x => if x.userId == b.userId then b else x)
  else bs ++ [b]

/-- The booking document `updateUserBookings` computes for `uid` from the
meeting collection (lines 527-632), given the user record is found. -/
def computeBooking (db : DB) (uid userEmail : String) (nowDate nowMin : Nat) : Booking :=
  let classified :=
    (db.meetings.filter (involvesUser uid)).filterMap
      (bucketOfMeeting uid userEmail nowDate nowMin)
  { userId := uid
    upcomingMeetings := (classified.filter (fun x => x.1 == Bucket.upcoming)).map (fun x => x.2)
    pendingMeetings := (classified.filter (fun x => x.1 == Bucket.pending)).map (fun x => x.2)
    canceledMeetings := (classified.filter (fun x => x.1 == Bucket.canceled)).map (fun x => x.2)
    pastMeetings := (classified.filter (fun x => x.1 == Bucket.past)).map (fun x => x.2) }

/-- `updateUserBookings(userId)` (meetingController.js lines 505-637): the
mutation-triggered dashboard rebuild.  Returns the booking it saved (`null`
and no write when the user record is missing) together with the store after
the wholesale replacement. -/
def updateUserBookings (db : DB) (uid : String) (nowDate nowMin : Nat) :
    Option Booking × DB :=
  match findUserById db uid with
  | none => (none, db)
  | some user =>
    let b := computeBooking db uid user.email nowDate nowMin
    (some b, { db with bookings := saveBooking db.bookings b })

/-- The past test of `refreshBookings` (bookingController.js lines 364-371):
only the end instant is compared, there is no date-before-today disjunct. -/
def refreshIsPast (nowDate nowMin : Nat) (m : Meeting) : Bool :=
  decide (m.date * 1440 + m.endTime < nowDate * 1440 + nowMin)

/-- One iteration of the meeting loop of `refreshBookings` (lines 352-398):
the participant entry is looked up by id only, the host defaults to
"accepted", and there is no branch producing pending or rejected entries
(the meeting-status comparison is against "canceled", not "cancelled"). -/
def refreshBucketOfMeeting (uid : String) (nowDate nowMin : Nat) (m : Meeting) :
    Option (Bucket × MeetingItem) :=
  let participantEntry := m.participants.find? (fun p => p.userId == some uid)
  if participantEntry.isNone && !(m.hostId == uid) then none
  else
    let status := match participantEntry with
      | some p => p.status
      | none => "accepted"
    let item := mkMeetingItem m status
    if refreshIsPast nowDate nowMin m then some (Bucket.past, item)
    else if m.status == "canceled" then some (Bucket.canceled, item)
    else if (match participantEntry with
             | some p => p.status == "accepted"
             | none => false) || m.hostId == uid then
      some (Bucket.upcoming, item)
    else none

/-- The still-pending invitations addressed to the user by id or email
(`MeetingInvitation.find` in `refreshBookings`, lines 337-343). -/
def pendingInvitationsFor (db : DB) (u : User) : List Invitation :=
  db.invitations.filter (fun inv =>
    (inv.userId == some u.id || inv.email == u.email) && inv.status == "pending")

/-- The pending entry `refreshBookings` pushes for an invitation (lines
413-425); this one carries the invitation id. -/
def mkInvitationItem (m : Meeting) (inv : Invitation) : MeetingItem :=
  { meetingId := m.id, title := m.title, date := m.date, startTime := m.startTime,
    endTime := m.endTime, status := "pending", hostId := m.hostId,
    isActive := m.isActive, invitationId := some inv.id }

/-- The invitation loop of `refreshBookings` (lines 401-430): each pending
invitation whose populated meeting exists and is not past contributes one
pending entry. -/
def invitationPendingItems (db : DB) (u : User) (nowDate nowMin : Nat) : List MeetingItem :=
  (pendingInvitationsFor db u).filterMap (fun inv =>
    match findMeetingById db inv.meetingId with
    | none => none
    | some m =>
      if refreshIsPast nowDate nowMin m then none else some (mkInvitationItem m inv))

/-- `refreshBookings` (bookingController.js lines 318-459): the explicit
dashboard refresh endpoint.  Its pending list consists solely of the
invitation-derived entries; the meeting loop never pushes a pending entry. -/
def refreshComputeBooking (db : DB) (u : User) (nowDate nowMin : Nat) : Booking :=
  let classified :=
    (db.meetings.filter (involvesUser u.id)).filterMap
      (refreshBucketOfMeeting u.id nowDate nowMin)
  { userId := u.id
    upcomingMeetings := (classified.filter (fun x => x.1 == Bucket.upcoming)).map (fun x => x.2)
    pendingMeetings := invitationPendingItems db u nowDate nowMin
    canceledMeetings := (classified.filter (fun x => x.1 == Bucket.canceled)).map (fun x => x.2)
    pastMeetings := (classified.filter (fun x => x.1 == Bucket.past)).map (fun x => x.2) }

def refreshBookings (db : DB) (u : User) (nowDate nowMin : Nat) : DB :=
  { db with bookings := saveBooking db.bookings (refreshComputeBooking db u nowDate nowMin) }

/-- The advisory per-invitee result `createMeeting` collects. -/
structure InviteeResult where
  email : String
  status : String
deriving DecidableEq

/-- The per-invitee callback of `createMeeting` (meetingController.js lines
19-68), for a freshly created meeting `m` with scheduling fields
`date`/`startTime`/`endTime`.  Returns the advisory result, the store after
any `MeetingInvitation.create` and invitee booking refresh, and the
participant entry pushed onto the in-memory meeting (`none` when the
conflict path returned before creating anything).  `invId` is the id the
store assigns to a created invitation. -/
def processInvitee (db : DB) (m : Meeting) (date startTime endTime : Nat)
    (nowDate nowMin : Nat) (invId : String) (email : String) :
    InviteeResult × DB × Option Participant :=
  let invitedUser := findUserByEmail db email
  let blocked := match invitedUser with
    | some u => (checkTimeConflict db u.id date startTime endTime none).isSome
    | none => false
  if blocked then ({ email := email, status := "conflict detected" }, db, none)
  else
    let inv : Invitation :=
      { id := invId, meetingId := m.id, userId := invitedUser.map (fun u => u.id),
        email := lowercase email, status := "pending" }
    let db1 := { db with invitations := db.invitations ++ [inv] }
    let pt : Participant :=
      { userId := invitedUser.map (fun u => u.id), email := lowercase email,
        status := "pending", responseAt := none }
    let db2 := match invitedUser with
      | some u => (updateUserBookings db1 u.id nowDate nowMin).2
      | none => db1
    ({ email := email, status := "invitation sent" }, db2, some pt)

/-- The time fields of the `updateMeeting` request body (other body fields
play no role in the conflict guard). -/
structure UpdateBody where
  date : Option Nat
  startTime : Option Nat
  endTime : Option Nat
deriving DecidableEq

/-- The outcome of `updateMeeting`, tagged as the spec's taxonomy. -/
inductive UpdateResult where
  | notFound
  | forbidden
  | conflict (conflicts : List (String × String))
  | ok (m : Meeting)
deriving DecidableEq

/-- The changed-time test of `updateMeeting` (lines 304-308): a body field
is present and differs from the stored one. -/
def timeChanged (body : UpdateBody) (m : Meeting) : Bool :=
  (match body.date with
   | some d => !(d == m.date)
   | none => false) ||
  (match body.startTime with
   | some s => !(s == m.startTime)
   | none => false) ||
  (match body.endTime with
   | some e => !(e == m.endTime)
   | none => false)

/-- The conflict collection loop of `updateMeeting` (lines 309-329): every
participant whose status is "accepted" and whose userId is known is checked
against the new time, excluding the edited meeting; nobody is skipped for
being the host. -/
def conflictingParticipants (db : DB) (m : Meeting) (body : UpdateBody) :
    List (String × String) :=
  m.participants.filterMap (fun p =>
    if p.status == "accepted" then
      match p.userId with
      | some uid =>
        match checkTimeConflict db uid (body.date.getD m.date)
            (body.startTime.getD m.startTime) (body.endTime.getD m.endTime)
            (some m.id) with
        | some _ => some (uid, p.email)
        | none => none
      | none => none
    else none)

/-- `Meeting.findByIdAndUpdate(id, req.body)` restricted to the modelled
time fields. -/
def applyBody (body : UpdateBody) (m : Meeting) : Meeting :=
  { m with date := body.date.getD m.date,
           startTime := body.startTime.getD m.startTime,
           endTime := body.endTime.getD m.endTime }

/-- Full-document replacement of a meeting by id. -/
def saveMeeting (ms : List Meeting) (m : Meeting) : List Meeting :=
  ms.map (fun x => if x.id == m.id then m else x)

/-- `updateMeeting` (meetingController.js lines 285-357): existence check,
host authorization, the time-change conflict guard, then the write and the
cascade of booking rebuilds for all participants with a userId. -/
def updateMeeting (db : DB) (reqUserId meetingId : String) (body : UpdateBody)
    (nowDate nowMin : Nat) : UpdateResult × DB :=
  match findMeetingById db meetingId with
  | none => (UpdateResult.notFound, db)
  | some m =>
    if !(m.hostId == reqUserId) then (UpdateResult.forbidden, db)
    else
      let conflicts := if timeChanged body m then conflictingParticipants db m body else []
      if !conflicts.isEmpty then (UpdateResult.conflict conflicts, db)
      else
        let m2 := applyBody body m
        let db1 := { db with meetings := saveMeeting db.meetings m2 }
        let db2 := m2.participants.foldl (fun acc p =>
          match p.userId with
          | some uid => (updateUserBookings acc uid nowDate nowMin).2
          | none => acc) db1
        (UpdateResult.ok m2, db2)

/-- The outcome of `respondToInvitation`. -/
inductive RespondResult where
  | invalidStatus
  | notFound
  | forbidden
  | ok (inv : Invitation) (m : Meeting)
deriving DecidableEq

/-- `ensureInvitationExists(meetingId, userId, userEmail)` (meetingController.js
lines 640-665): reuse an invitation matching the meeting and the user (by id
or email), else create a pending one (the schema lowercases the stored
email).  `freshId` is the id the store assigns on creation. -/
def ensureInvitationExists (db : DB) (meetingId uid email freshId : String) :
    Invitation × DB :=
  match db.invitations.find? (fun i =>
      i.meetingId == meetingId && (i.userId == some uid || i.email == email)) with
  | some i => (i, db)
  | none =>
    let inv : Invitation :=
      { id := freshId, meetingId := meetingId, userId := some uid,
        email := lowercase email, status := "pending" }
    (inv, { db with invitations := db.invitations ++ [inv] })

/-- Full-document replacement of an invitation by id
(`invitation.save()`). -/
def saveInvitation (is : List Invitation) (inv : Invitation) : List Invitation :=
  is.map (fun x => if x.id == inv.id then inv else x)

/-- First-match in-place update of a participant list, mirroring
`findIndex` + mutation; `none` when no entry matches. -/
def updateFirstParticipant (sel : Participant → Bool) (f : Participant → Participant) :
    List Participant → Option (List Participant)
  | [] => none
  | p :: rest =>
    if sel p then some (f p :: rest)
    else (updateFirstParticipant sel f rest).map (fun l => p :: l)

/-- The participant transition of `respondToInvitation` (lines 742-772):
on "accepted" the matching entry (by userId or invitation email) is updated
and its userId back-filled, or a new accepted entry is pushed; on "rejected"
only an existing matching entry is updated. -/
def applyResponse (m : Meeting) (status uid email : String) (now : Nat) : Meeting :=
  let matchEntry := fun (p : Participant) => p.userId == some uid || p.email == email
  if status == "accepted" then
    match updateFirstParticipant matchEntry (fun p =>
        { p with status := "accepted", responseAt := some now,
                 userId := some (p.userId.getD uid) }) m.participants with
    | some ps => { m with participants := ps }
    | none =>
      { m with participants := m.participants ++
          [{ userId := some uid, email := email, status := "accepted",
             responseAt := some now }] }
  else if status == "rejected" then
    match updateFirstParticipant matchEntry (fun p =>
        { p with status := "rejected", responseAt := some now }) m.participants with
    | some ps => { m with participants := ps }
    | none => m
  else m

/-- `respondToInvitation(invitationId, status)` (meetingController.js lines
670-791).  The identifier may be an invitation id or, failing that, a
meeting id (the self-healing path lazily materializes an invitation, with
store-assigned id `freshId`).  The invitation status is persisted before the
meeting lookup. -/
def respondToInvitation (db : DB) (reqUser : User) (invitationId status freshId : String)
    (nowDate nowMin : Nat) : RespondResult × DB :=
  if !(status == "accepted" || status == "rejected") then (RespondResult.invalidStatus, db)
  else
    let found : Option (Invitation × DB) :=
      match db.invitations.find? (fun i => i.id == invitationId) with
      | some inv => some (inv, db)
      | none =>
        match findMeetingById db invitationId with
        | some m => some (ensureInvitationExists db m.id reqUser.id reqUser.email freshId)
        | none => none
    match found with
    | none => (RespondResult.notFound, db)
    | some (inv, db0) =>
      if (match inv.userId with
          | some u => !(u == reqUser.id)
          | none => false) && !(inv.email == reqUser.email) then
        (RespondResult.forbidden, db0)
      else
        let inv1 := { inv with status := status }
        let db1 := { db0 with invitations := saveInvitation db0.invitations inv1 }
        match findMeetingById db1 inv1.meetingId with
        | none => (RespondResult.notFound, db1)
        | some m =>
          let m2 := applyResponse m status reqUser.id inv1.email
            (nowDate * 1440 + nowMin)
          let db2 := { db1 with meetings := saveMeeting db1.meetings m2 }
          let db3 := (updateUserBookings db2 reqUser.id nowDate nowMin).2
          let db4 :=
            if !(m2.hostId == reqUser.id) then
              (updateUserBookings db3 m2.hostId nowDate nowMin).2
            else db3
          (RespondResult.ok inv1 m2, db4)

/-- The outcome of `duplicateMeeting`. -/
inductive DupResult where
  | notFound
  | forbidden
  | ok (m : Meeting)
deriving DecidableEq

/-- `duplicateMeeting` (meetingController.js lines 796-856): copy the core
fields (title suffixed " (Copy)" unless overridden, date optionally
overridden), force `isActive := true`, take the schema default status, copy
no participants, push the host as the sole accepted participant, and create
no invitations.  `newId` is the id the store assigns to the copy. -/
def duplicateMeeting (db : DB) (reqUser : User) (meetingId newId : String)
    (bodyTitle : Option String) (bodyDate : Option Nat) : DupResult × DB :=
  match findMeetingById db meetingId with
  | none => (DupResult.notFound, db)
  | some m =>
    if !(m.hostId == reqUser.id) then (DupResult.forbidden, db)
    else
      let newMeeting : Meeting :=
        { id := newId, hostId := m.hostId,
          title := bodyTitle.getD (m.title ++ " (Copy)"),
          description := m.description,
          date := bodyDate.getD m.date,
          startTime := m.startTime, endTime := m.endTime,
          duration := m.duration, timezone := m.timezone,
          meetingLink := m.meetingLink,
          status := "upcoming",
          isActive := true,
          participants :=
            [{ userId := some reqUser.id, email := reqUser.email,
               status := "accepted", responseAt := none }] }
      (DupResult.ok newMeeting, { db with meetings := db.meetings ++ [newMeeting] })

/-- A raw slot from the `updateDayAvailability` request body: either field
may be absent. -/
structure SlotInput where
  startTime : Option String
  endTime : Option String
deriving DecidableEq

/-- The slot validation of `updateDayAvailability` (userController.js lines
164-168): drop non-object entries and default missing bounds to `""`. -/
def normalizeSlots (slots : List (Option SlotInput)) : List Slot :=
  (slots.filterMap id).map (fun s =>
    { startTime := s.startTime.getD "", endTime := s.endTime.getD "" })

/-- The `validatedSlots` computation of `updateDayAvailability` (lines
160-174): it runs only when `isAvailable` is truthy and a slots array was
sent, and inserts the single all-day default when nothing valid remains. -/
def validatedSlotsFor (isAvailable : Option Bool) (slots : Option (List (Option SlotInput))) :
    List Slot :=
  match isAvailable, slots with
  | some true, some l =>
    let v := normalizeSlots l
    if v.isEmpty then [{ startTime := "", endTime := "" }] else v
  | _, _ => []

/-- The canonical weekday names (lines 143, 231). -/
def validDays : List String :=
  ["Monday", "Tuesday", "Wednesday", "Thursday", "Friday", "Saturday", "Sunday"]

/-- First-match update of the day entry, mirroring
`availability.findIndex(a => a.day === day)` plus mutation, with the
push-at-end when the day is absent. -/
def upsertDay (day : String) (f : DayAvailability → DayAvailability)
    (absent : DayAvailability) : List DayAvailability → List DayAvailability
  | [] => [absent]
  | e :: rest => if e.day == day then f e :: rest else e :: upsertDay day f absent rest

/-- The outcome of `updateDayAvailability`. -/
inductive DayResult where
  | invalidInput
  | ok (u : User)
deriving DecidableEq

/-- `updateDayAvailability(day, { isAvailable, slots })` (userController.js
lines 138-222).  `isAvailable` is `none` when the body omits it. -/
def updateDayAvailability (u : User) (day : String) (isAvailable : Option Bool)
    (slots : Option (List (Option SlotInput))) : DayResult :=
  if !(validDays.contains day) then DayResult.invalidInput
  else
    let validated := validatedSlotsFor isAvailable slots
    let absent : DayAvailability :=
      { day := day,
        isAvailable := isAvailable.getD true,
        slots := if isAvailable == some false then [] else validated }
    let f : DayAvailability → DayAvailability := fun e =>
      match isAvailable with
      | some b =>
        if !b then { e with isAvailable := b, slots := [] }
        else if !validated.isEmpty then { e with isAvailable := b, slots := validated }
        else if e.slots.isEmpty then
          { e with isAvailable := b, slots := [{ startTime := "", endTime := "" }] }
        else { e with isAvailable := b }
      | none =>
        if !validated.isEmpty then { e with slots := validated } else e
    DayResult.ok { u with availability := upsertDay day f absent u.availability }

/-- `updateAvailability` (userController.js lines 26-77): the bulk setter
stores the client-provided array verbatim, with no normalization. -/
def updateAvailability (u : User) (availability : List DayAvailability) : User :=
  { u with availability := availability }

/-- The stored state the claim says can never occur: a day marked available
whose slot list is empty. -/
def availableNoSlots (d : DayAvailability) : Bool :=
  d.isAvailable && d.slots.isEmpty

/-- The four-bucket classification as the specification words it, first
matching rule winning: (1) past, (2) meeting cancelled or participant
rejected, (3) participant pending and not host, (4) participant accepted or
host; anything else is dropped. -/
def classifySpecRules (isPast : Bool) (meetingStatus participantStatus : String)
    (isHost : Bool) : Option Bucket :=
  if isPast = true then some Bucket.past
  else if meetingStatus = "cancelled" ∨ participantStatus = "rejected" then
    some Bucket.canceled
  else if participantStatus = "pending" ∧ isHost = false then some Bucket.pending
  else if participantStatus = "accepted" ∨ isHost = true then some Bucket.upcoming
  else none

/-- The invitations the specification says contribute pending dashboard
entries: still pending, addressed to the user by id or email, and whose
linked meeting exists and is not past. -/
def specQualifyingInvitations (db : DB) (u : User) (nowDate nowMin : Nat) :
    List Invitation :=
  db.invitations.filter (fun inv =>
    (inv.userId == some u.id || inv.email == u.email) && inv.status == "pending" &&
    (match findMeetingById db inv.meetingId with
     | some m => !refreshIsPast nowDate nowMin m
     | none => false))

/-- Test fixture: a meeting with the default incidental fields. -/
def baseMeeting (id hostId : String) (date startTime endTime : Nat)
    (participants : List Participant) : Meeting :=
  { id := id, hostId := hostId, title := "t", description := "", date := date,
    startTime := startTime, endTime := endTime, duration := 60, timezone := "UTC",
    meetingLink := "", status := "upcoming", isActive := true,
    participants := participants }

/-- Fixture: the host as an accepted participant. -/
def exHostPart : Participant :=
  { userId := some "h1", email := "h@x.com", status := "accepted", responseAt := none }

/-- Fixture: user B as an accepted participant. -/
def exBPart : Participant :=
  { userId := some "b1", email := "b@x.com", status := "accepted", responseAt := none }

/-- Fixture: the host user record. -/
def exHost : User := { id := "h1", email := "h@x.com", availability := [] }

/-- Fixture: the meeting being edited in the update scenario. -/
def exM1 : Meeting := baseMeeting "m1" "h1" 10 540 600 [exHostPart, exBPart]

/-- Fixture: another meeting of the host on the target date. -/
def exM2 : Meeting := baseMeeting "m2" "h1" 11 540 600 [exHostPart]

/-- Fixture store for the update-time conflict scenario: host h1 edits exM1
while also hosting exM2 on the new date; participant b1 is free. -/
def exDbUpd : DB :=
  { users := [exHost, { id := "b1", email := "b@x.com", availability := [] }],
    meetings := [exM1, exM2], invitations := [], bookings := [] }

/-- Fixture body: move the meeting to the date of exM2. -/
def exBodyUpd : UpdateBody := { date := some 11, startTime := none, endTime := none }

/-- Fixture: the invited user for the dashboard scenarios. -/
def exInvitee : User := { id := "u1", email := "u@x.com", availability := [] }

/-- Fixture: a future meeting hosted by a1 in which u1 is not yet a
participant. -/
def exMInv : Meeting :=
  baseMeeting "m1" "a1" 10 540 600
    [{ userId := some "a1", email := "a@x.com", status := "accepted", responseAt := none }]

/-- Fixture: the still-pending invitation addressed to u1 for exMInv. -/
def exPendingInv : Invitation :=
  { id := "i1", meetingId := "m1", userId := some "u1", email := "u@x.com",
    status := "pending" }

/-- Fixture store for the pending-invitation dashboard scenario. -/
def exDbInv : DB :=
  { users := [{ id := "a1", email := "a@x.com", availability := [] }, exInvitee],
    meetings := [exMInv], invitations := [exPendingInv], bookings := [] }

/-- Fixture: a meeting hosted by b1 occupying 540-600 on day 10. -/
def exMB : Meeting :=
  baseMeeting "m2" "b1" 10 540 600
    [{ userId := some "b1", email := "b@x.com", status := "accepted", responseAt := none }]

/-- Fixture: a freshly created meeting of a1 (participants still empty, as at
invite-processing time). -/
def exMNew : Meeting := baseMeeting "m1" "a1" 10 540 600 []

/-- Fixture store for the invite-time conflict scenario: inviting b\@x.com to
exMNew clashes with exMB. -/
def exDbInvite : DB :=
  { users := [{ id := "a1", email := "a@x.com", availability := [] },
              { id := "b1", email := "b@x.com", availability := [] }],
    meetings := [exMB, exMNew], invitations := [], bookings := [] }

/-- Fixture: a user with no availability entries yet. -/
def exUserAvail : User := { id := "u1", email := "u@x.com", availability := [] }

/-- Fixture: a pending invitation whose meetingId matches no meeting. -/
def exOrphanInv : Invitation :=
  { id := "i1", meetingId := "mX", userId := some "u1", email := "u@x.com",
    status := "pending" }

/-- Fixture store for the orphaned-invitation response scenario: the
invitation points at a meeting id that matches no meeting. -/
def exDbOrphan : DB :=
  { users := [exInvitee], meetings := [], invitations := [exOrphanInv],
    bookings := [] }

/-! Helper lemmas shared by the claim theorems. -/

theorem checkTimeConflict_some_overlap (db : DB) (uid : String) (d s e : Nat)
    (ex : Option String) (m : Meeting)
    (h : checkTimeConflict db uid d s e ex = some m) :
    overlapCheck s e m.startTime m.endTime = true := by
  unfold checkTimeConflict at h
  rcases hr : (if looksLikeEmail uid then (findUserByEmail db uid).map (fun u => u.id)
      else some uid) with _ | v
  · rw [hr] at h
    simp at h
  · rw [hr] at h
    have h2 : (db.meetings.filter (conflictQueryMatch v d ex)).find?
        (fun m2 => overlapCheck s e m2.startTime m2.endTime) = some m := h
    have h3 := List.find?_some h2
    exact h3

theorem find?_cons_hit {α : Type} (p : α → Bool) (a : α) (l : List α) (h : p a = true) :
    List.find? p (a :: l) = some a :=
  List.find?_cons_of_pos l h

theorem find?_cons_skip {α : Type} (p : α → Bool) (a : α) (l : List α) (h : p a = false) :
    List.find? p (a :: l) = List.find? p l :=
  List.find?_cons_of_neg l (by simp [h])

theorem find_map_replace (bs : List Booking) (b : Booking)
    (h : bs.any (fun x => x.userId == b.userId) = true) :
    (bs.map (fun x => if x.userId == b.userId then b else x)).find?
      (fun x => x.userId == b.userId) = some b := by
  induction bs with
  | nil => simp at h
  | cons a t ih =>
    simp only [List.any_cons, Bool.or_eq_true] at h
    by_cases ha : (a.userId == b.userId) = true
    · simp only [List.map_cons, if_pos ha]
      exact find?_cons_hit (fun x => x.userId == b.userId) b _ (beq_self_eq_true _)
    · rcases h with h | h
      · exact absurd h ha
      · simp only [List.map_cons, if_neg ha]
        rw [find?_cons_skip (fun x => x.userId == b.userId) a _
          (Bool.eq_false_iff.mpr ha)]
        exact ih h

theorem find_append_self (bs : List Booking) (b : Booking)
    (h : bs.any (fun x => x.userId == b.userId) = false) :
    (bs ++ [b]).find? (fun x => x.userId == b.userId) = some b := by
  induction bs with
  | nil =>
    simp only [List.nil_append]
    exact find?_cons_hit (fun x => x.userId == b.userId) b _ (beq_self_eq_true _)
  | cons a t ih =>
    rw [List.any_cons, Bool.or_eq_false_iff] at h
    simp only [List.cons_append]
    rw [find?_cons_skip (fun x => x.userId == b.userId) a _ h.1]
    exact ih h.2

theorem map_replace_noop (bs : List Booking) (b : Booking)
    (h : bs.any (fun x => x.userId == b.userId) = false) :
    bs.map (fun x => if x.userId == b.userId then b else x) = bs := by
  have hall := List.any_eq_false.mp h
  calc bs.map (fun x => if x.userId == b.userId then b else x)
      = bs.map id := List.map_congr_left (fun x hx => by
        simp [Bool.eq_false_iff.mpr (hall x hx)])
    _ = bs := List.map_id bs

theorem saveBooking_self_find (bs : List Booking) (b : Booking) :
    (saveBooking bs b).find? (fun x => x.userId == b.userId) = some b := by
  unfold saveBooking
  by_cases h : bs.any (fun x => x.userId == b.userId) = true
  · rw [if_pos h]
    exact find_map_replace bs b h
  · rw [if_neg h]
    exact find_append_self bs b (Bool.eq_false_iff.mpr h)

theorem saveBooking_idem (bs : List Booking) (b : Booking) :
    saveBooking (saveBooking bs b) b = saveBooking bs b := by
  have hfb : ∀ x : Booking,
      (if (if x.userId == b.userId then b else x).userId == b.userId
       then b else (if x.userId == b.userId then b else x)) =
      (if x.userId == b.userId then b else x) := by
    intro x
    by_cases hx : (x.userId == b.userId) = true
    · simp [hx]
    · simp [hx]
  unfold saveBooking
  by_cases h : bs.any (fun x => x.userId == b.userId) = true
  · rw [if_pos h]
    have hmem : (bs.map (fun x => if x.userId == b.userId then b else x)).any
        (fun x => x.userId == b.userId) = true :=
      List.any_eq_true.mpr ⟨b, List.mem_of_find?_eq_some (find_map_replace bs b h),
        beq_self_eq_true _⟩
    rw [if_pos hmem, List.map_map]
    exact List.map_congr_left (fun x _ => hfb x)
  · rw [if_neg h]
    have hfalse := Bool.eq_false_iff.mpr h
    have happ : ((bs ++ [b]).any (fun x => x.userId == b.userId)) = true :=
      List.any_eq_true.mpr ⟨b, List.mem_append_right _ (List.mem_singleton_self b),
        beq_self_eq_true _⟩
    rw [if_pos happ, List.map_append]
    rw [map_replace_noop bs b hfalse]
    simp [beq_self_eq_true]

theorem saveInvitation_find (l : List Invitation) (x : String) (v w : Invitation)
    (hv : l.find? (fun i => i.id == x) = some v) (hw : w.id = v.id) :
    (saveInvitation l w).find? (fun i => i.id == x) = some w := by
  induction l with
  | nil => simp at hv
  | cons a t ih =>
    by_cases hax : (a.id == x) = true
    · rw [find?_cons_hit _ a t hax] at hv
      have hav : a = v := Option.some.inj hv
      have haw : (a.id == w.id) = true := by
        rw [hw, ← hav]
        exact beq_self_eq_true _
      have hwx : (w.id == x) = true := by
        rw [hw, ← hav]
        exact hax
      unfold saveInvitation
      simp only [List.map_cons, if_pos haw]
      exact find?_cons_hit _ w _ hwx
    · have haf : (a.id == x) = false := Bool.eq_false_iff.mpr hax
      rw [find?_cons_skip _ a t haf] at hv
      have hfv := List.find?_some hv
      have hvx : v.id = x := beq_iff_eq.mp hfv
      have haw : ¬(a.id == w.id) = true := by
        rw [hw, hvx]
        exact hax
      unfold saveInvitation
      simp only [List.map_cons, if_neg haw]
      rw [find?_cons_skip _ a _ haf]
      exact ih hv

theorem bucketOfMeeting_invitationId (uid em : String) (nD nM : Nat) (m : Meeting)
    (x : Bucket × MeetingItem) (h : bucketOfMeeting uid em nD nM m = some x) :
    x.2.invitationId = none := by
  unfold bucketOfMeeting at h
  cases hp : m.participants.find? (fun p => p.userId == some uid || p.email == em) with
  | none => rw [hp] at h; simp at h
  | some pr =>
    rw [hp] at h
    dsimp only at h
    cases hc : classifyMeeting (isPastMeeting nD nM m) m.status pr.status
        (m.hostId == uid) with
    | none => rw [hc] at h; simp at h
    | some b =>
      rw [hc] at h
      dsimp only at h
      have hx := Option.some.inj h
      rw [← hx]
      rfl

theorem pending_items_ids_aux (db : DB) (u : User) (nD nM : Nat) (l : List Invitation) :
    ((l.filter (fun inv => (inv.userId == some u.id || inv.email == u.email) &&
        inv.status == "pending")).filterMap (fun inv =>
      match findMeetingById db inv.meetingId with
      | none => none
      | some m =>
        if refreshIsPast nD nM m then none else some (mkInvitationItem m inv))).map
      (fun it => it.invitationId) =
    (l.filter (fun inv => (inv.userId == some u.id || inv.email == u.email) &&
        inv.status == "pending" &&
        (match findMeetingById db inv.meetingId with
         | some m => !refreshIsPast nD nM m
         | none => false))).map (fun inv => some inv.id) := by
  induction l with
  | nil => rfl
  | cons a t ih =>
    by_cases h1 : ((a.userId == some u.id || a.email == u.email) &&
        a.status == "pending") = true
    · cases hm : findMeetingById db a.meetingId with
      | none =>
        simp only [List.filter_cons, h1, hm, if_true, List.filterMap_cons,
          Bool.and_false, if_false, Bool.false_eq_true]
        exact ih
      | some m =>
        cases hp : refreshIsPast nD nM m with
        | true =>
          simp only [List.filter_cons, h1, hm, hp, if_true, List.filterMap_cons,
            Bool.not_true, Bool.and_false, if_false, Bool.false_eq_true]
          exact ih
        | false =>
          simp only [List.filter_cons, h1, hm, hp, if_true, List.filterMap_cons,
            Bool.not_false, Bool.and_true, List.map_cons]
          exact congrArg (List.cons (some a.id)) ih
    · have h1f : ((a.userId == some u.id || a.email == u.email) &&
          a.status == "pending") = false := Bool.eq_false_iff.mpr h1
      simp only [List.filter_cons, h1f, Bool.false_and, if_false, Bool.false_eq_true]
      exact ih

/-! Claim theorems. -/

/-- C1: for every pair of well-formed windows on the same date, the overlap
comparison the conflict detector applies reports a conflict iff the
half-open windows satisfy `s1 < e2 && s2 < e1`; the comparison is symmetric
in the two windows; [09:00,10:00) vs [10:00,11:00) never conflicts and
[09:00,10:30) vs [10:00,11:00) always conflicts; and any meeting
`checkTimeConflict` returns did pass this comparison. -/
theorem conflict_overlap_halfOpen (s1 e1 s2 e2 : Nat) (h1 : s1 < e1) (h2 : s2 < e2) :
    (overlapCheck s1 e1 s2 e2 = true ↔ (s1 < e2 ∧ s2 < e1)) ∧
    overlapCheck s1 e1 s2 e2 = overlapCheck s2 e2 s1 e1 ∧
    overlapCheck 540 600 600 660 = false ∧
    overlapCheck 540 630 600 660 = true ∧
    (∀ (db : DB) (uid : String) (d : Nat) (ex : Option String) (m : Meeting),
      checkTimeConflict db uid d s1 e1 ex = some m →
      overlapCheck s1 e1 m.startTime m.endTime = true) := by
  refine ⟨?_, ?_, by decide, by decide, ?_⟩
  · simp only [overlapCheck, Bool.or_eq_true, Bool.and_eq_true, decide_eq_true_eq]
    omega
  · rw [Bool.eq_iff_iff]
    simp only [overlapCheck, Bool.or_eq_true, Bool.and_eq_true, decide_eq_true_eq]
    omega
  · intro db uid d ex m hm
    exact checkTimeConflict_some_overlap db uid d s1 e1 ex m hm

/-- Witness for C1 at the spec's concrete windows. -/
theorem conflict_overlap_halfOpen_witness :
    540 < 600 ∧ 600 < 660 ∧
    (overlapCheck 540 600 600 660 = true ↔ (540 < 660 ∧ 600 < 600)) :=
  ⟨by decide, by decide,
   (conflict_overlap_halfOpen 540 600 600 660 (by decide) (by decide)).1⟩

/-- C8: when the identity handed to the conflict detector is an email that
resolves to no registered user, the detector returns `none` (no conflict)
rather than an error. -/
theorem unknown_email_no_conflict (db : DB) (ident : String) (d s e : Nat)
    (ex : Option String) (hm : looksLikeEmail ident = true)
    (hu : findUserByEmail db ident = none) :
    checkTimeConflict db ident d s e ex = none := by
  unfold checkTimeConflict
  rw [if_pos hm, hu]
  rfl

/-- Witness for C8: an email addressed to nobody in the store. -/
theorem unknown_email_no_conflict_witness :
    looksLikeEmail "ghost@x.com" = true ∧
    findUserByEmail exDbInvite "ghost@x.com" = none ∧
    checkTimeConflict exDbInvite "ghost@x.com" 10 540 600 none = none :=
  ⟨by decide, by decide,
   unknown_email_no_conflict exDbInvite "ghost@x.com" 10 540 600 none
     (by decide) (by decide)⟩

/-- C3: the four-bucket classification of the booking rebuild agrees with
the spec's first-match precedence on every input, and in particular a
past-dated meeting with a rejected participant status always lands in
`past`, never `canceled`. -/
theorem classification_precedence :
    (∀ (isPast : Bool) (ms ps : String) (isHost : Bool),
      classifyMeeting isPast ms ps isHost = classifySpecRules isPast ms ps isHost) ∧
    (∀ (ms : String) (isHost : Bool),
      classifyMeeting true ms "rejected" isHost = some Bucket.past) := by
  constructor
  · intro isPast ms ps isHost
    unfold classifyMeeting classifySpecRules
    cases isPast with
    | true => rfl
    | false =>
      by_cases hc : ms = "cancelled" <;> by_cases hr : ps = "rejected" <;>
        by_cases hp : ps = "pending" <;> by_cases ha : ps = "accepted" <;>
        cases isHost <;>
        simp_all
  · intro ms isHost
    rfl

theorem findMeetingById_setInvitations (db : DB) (l : List Invitation) (i : String) :
    findMeetingById { db with invitations := l } i = findMeetingById db i := rfl

theorem findUserById_setBookings (db : DB) (l : List Booking) (i : String) :
    findUserById { db with bookings := l } i = findUserById db i := rfl

/-- C10: duplicating a meeting as its host yields a copy whose only
participant is the host with status "accepted" and whose `isActive` is
true (status takes the schema default), regardless of the original's
participants, status or active flag; the store change is exactly the
appended copy, so the original meeting and all Invitation records are
untouched and no invitations are created. -/
theorem duplicate_fresh_copy (db : DB) (ru : User) (mid nid : String)
    (bt : Option String) (bd : Option Nat) (m : Meeting)
    (hm : findMeetingById db mid = some m) (hh : m.hostId = ru.id) :
    ∃ nm, duplicateMeeting db ru mid nid bt bd =
        (DupResult.ok nm, { db with meetings := db.meetings ++ [nm] }) ∧
      nm.participants = [{ userId := some ru.id, email := ru.email,
                           status := "accepted", responseAt := none }] ∧
      nm.isActive = true ∧ nm.status = "upcoming" := by
  unfold duplicateMeeting
  rw [hm]
  have hbeq : (m.hostId == ru.id) = true := beq_iff_eq.mpr hh
  dsimp only
  rw [if_neg (by simp [hbeq])]
  exact ⟨_, rfl, rfl, rfl, rfl⟩

/-- Witness for C10: the host duplicates exM1 in the fixture store. -/
theorem duplicate_fresh_copy_witness :
    findMeetingById exDbUpd "m1" = some exM1 ∧ exM1.hostId = exHost.id ∧
    (∃ nm, duplicateMeeting exDbUpd exHost "m1" "m9" none none =
        (DupResult.ok nm, { exDbUpd with meetings := exDbUpd.meetings ++ [nm] }) ∧
      nm.participants = [{ userId := some exHost.id, email := exHost.email,
                           status := "accepted", responseAt := none }] ∧
      nm.isActive = true ∧ nm.status = "upcoming") :=
  ⟨by decide, rfl,
   duplicate_fresh_copy exDbUpd exHost "m1" "m9" none none exM1 (by decide) rfl⟩

/-- C9: responding with a valid status, as the invitation's owner, to an
invitation whose meetingId matches no meeting returns NotFound, yet the
invitation's status has already been persisted to the requested value
before the meeting lookup: the resulting store differs from the input
exactly by that invitation write, so the transition is not atomic. -/
theorem respond_orphan_meeting_mutates (db : DB) (ru : User) (invId status fid : String)
    (nD nM : Nat) (inv : Invitation)
    (hs : status = "accepted" ∨ status = "rejected")
    (hfind : db.invitations.find? (fun i => i.id == invId) = some inv)
    (hown : ((match inv.userId with
              | some w => !(w == ru.id)
              | none => false) && !(inv.email == ru.email)) = false)
    (hm : findMeetingById db inv.meetingId = none) :
    respondToInvitation db ru invId status fid nD nM =
      (RespondResult.notFound,
       { db with invitations :=
           saveInvitation db.invitations { inv with status := status } }) ∧
    (saveInvitation db.invitations { inv with status := status }).find?
      (fun i => i.id == invId) = some { inv with status := status } := by
  have hv : (status == "accepted" || status == "rejected") = true := by
    rcases hs with h | h <;> simp [h]
  constructor
  · unfold respondToInvitation
    rw [if_neg (by simp [hv])]
    rw [hfind]
    dsimp only
    rw [hown]
    rw [if_neg (by simp)]
    rw [findMeetingById_setInvitations, hm]
  · exact saveInvitation_find db.invitations invId inv { inv with status := status }
      hfind rfl

/-- Witness for C9: accepting the fixture's orphaned invitation. -/
theorem respond_orphan_meeting_mutates_witness :
    ("accepted" = "accepted" ∨ "accepted" = "rejected") ∧
    exDbOrphan.invitations.find? (fun i => i.id == "i1") = some exOrphanInv ∧
    findMeetingById exDbOrphan "mX" = none ∧
    (respondToInvitation exDbOrphan exInvitee "i1" "accepted" "f1" 0 0 =
      (RespondResult.notFound,
       { exDbOrphan with invitations :=
           saveInvitation exDbOrphan.invitations { exOrphanInv with status := "accepted" } }) ∧
     (saveInvitation exDbOrphan.invitations
        { exOrphanInv with status := "accepted" }).find?
       (fun i => i.id == "i1") = some { exOrphanInv with status := "accepted" }) :=
  ⟨Or.inl rfl, by decide, by decide,
   respond_orphan_meeting_mutates exDbOrphan exInvitee "i1" "accepted" "f1" 0 0
     exOrphanInv (Or.inl rfl) (by decide) (by decide) (by decide)⟩

/-- C2 counterexample: host h1 moves exM1 onto the date of their own other
meeting exM2; no non-host accepted participant conflicts at the new time,
yet the update is rejected with the host listed — so the conflict re-check
is not "host excluded" as claimed. -/
theorem update_guard_counterexample :
    updateMeeting exDbUpd "h1" "m1" exBodyUpd 0 0 =
      (UpdateResult.conflict [("h1", "h@x.com")], exDbUpd) ∧
    exM1.hostId = "h1" ∧
    (∀ p ∈ exM1.participants, p.status = "accepted" → p.userId ≠ some "h1" →
      ∀ uid, p.userId = some uid →
        checkTimeConflict exDbUpd uid 11 540 600 (some "m1") = none) := by
  decide

/-- C2 (amended): when a host changes date/start/end, the engine re-runs the
conflict check for every currently-accepted participant with a known userId
— the host included, since the host is an auto-accepted participant —
against the new time, excluding the edited meeting; if any of them
conflicts the whole update is rejected with the list of conflicting
participants and the store is left unchanged (no partial application);
otherwise the time fields are applied. -/
theorem update_conflict_guard (db : DB) (ruid mid : String) (body : UpdateBody)
    (nD nM : Nat) (m : Meeting)
    (hm : findMeetingById db mid = some m) (hh : m.hostId = ruid)
    (ht : timeChanged body m = true) :
    (conflictingParticipants db m body ≠ [] →
      updateMeeting db ruid mid body nD nM =
        (UpdateResult.conflict (conflictingParticipants db m body), db)) ∧
    (conflictingParticipants db m body = [] →
      ∃ db2, updateMeeting db ruid mid body nD nM =
        (UpdateResult.ok (applyBody body m), db2)) ∧
    (conflictingParticipants db m body = [] ↔
      ∀ p ∈ m.participants, p.status = "accepted" →
        ∀ uid, p.userId = some uid →
          checkTimeConflict db uid (body.date.getD m.date)
            (body.startTime.getD m.startTime) (body.endTime.getD m.endTime)
            (some m.id) = none) := by
  have hbeq : (m.hostId == ruid) = true := beq_iff_eq.mpr hh
  refine ⟨?_, ?_, ?_⟩
  · intro hcne
    have hne : (conflictingParticipants db m body).isEmpty = false := by
      rcases hl : conflictingParticipants db m body with _ | ⟨c, cs⟩
      · exact absurd hl hcne
      · rfl
    unfold updateMeeting
    rw [hm]
    dsimp only
    rw [if_neg (by simp [hbeq]), if_pos ht]
    rw [if_pos (by simp [hne])]
  · intro hce
    unfold updateMeeting
    rw [hm]
    dsimp only
    rw [if_neg (by simp [hbeq]), if_pos ht, hce]
    rw [if_neg (by simp)]
    exact ⟨_, rfl⟩
  · unfold conflictingParticipants
    rw [List.filterMap_eq_nil_iff]
    constructor
    · intro hall p hp hacc uid huid
      have hf := hall p hp
      rw [if_pos (beq_iff_eq.mpr hacc), huid] at hf
      dsimp only at hf
      cases hc : checkTimeConflict db uid (body.date.getD m.date)
          (body.startTime.getD m.startTime) (body.endTime.getD m.endTime)
          (some m.id) with
      | none => rfl
      | some c => rw [hc] at hf; simp at hf
    · intro hall p hp
      by_cases hacc : (p.status == "accepted") = true
      · cases hup : p.userId with
        | none => rw [if_pos hacc]
        | some uid =>
          rw [if_pos hacc]
          dsimp only
          rw [hall p hp (beq_iff_eq.mp hacc) uid hup]
      · rw [if_neg hacc]

/-- Witness for C2's amended guard at the fixture store. -/
theorem update_conflict_guard_witness :
    findMeetingById exDbUpd "m1" = some exM1 ∧ exM1.hostId = "h1" ∧
    timeChanged exBodyUpd exM1 = true ∧
    (conflictingParticipants exDbUpd exM1 exBodyUpd ≠ [] →
      updateMeeting exDbUpd "h1" "m1" exBodyUpd 0 0 =
        (UpdateResult.conflict (conflictingParticipants exDbUpd exM1 exBodyUpd),
         exDbUpd)) :=
  ⟨by decide, rfl, by decide,
   (update_conflict_guard exDbUpd "h1" "m1" exBodyUpd 0 0 exM1
     (by decide) rfl (by decide)).1⟩

/-- C5 counterexample: the invitee email resolves to registered user b1, who
has a conflicting meeting; the per-invitee processing returns the advisory
"conflict detected" but creates neither the Invitation record nor the
Participant entry, and leaves the store untouched — so a detected conflict
does block invitation creation. -/
theorem invite_conflict_counterexample :
    processInvitee exDbInvite exMNew 10 540 600 0 0 "i9" "b@x.com" =
      ({ email := "b@x.com", status := "conflict detected" }, exDbInvite, none) ∧
    findUserByEmail exDbInvite "b@x.com" =
      some { id := "b1", email := "b@x.com", availability := [] } ∧
    (checkTimeConflict exDbInvite "b1" 10 540 600 none).isSome = true := by
  decide

/-- C5 (amended): when an invitee email resolves to a registered user and a
time conflict is detected for that invitee, the conflict blocks invitation
creation for that invitee: only the advisory per-invitee result is
returned, no Invitation record is created, no Participant entry is pushed,
and the store is unchanged. -/
theorem invite_conflict_blocks_creation (db : DB) (m : Meeting) (d s e nD nM : Nat)
    (iid email : String) (u : User)
    (hu : findUserByEmail db email = some u)
    (hc : (checkTimeConflict db u.id d s e none).isSome = true) :
    processInvitee db m d s e nD nM iid email =
      ({ email := email, status := "conflict detected" }, db, none) := by
  unfold processInvitee
  rw [hu]
  dsimp only
  rw [if_pos hc]

/-- Witness for C5's amended blocking behaviour at the fixture store. -/
theorem invite_conflict_blocks_creation_witness :
    findUserByEmail exDbInvite "b@x.com" =
      some { id := "b1", email := "b@x.com", availability := [] } ∧
    (checkTimeConflict exDbInvite "b1" 10 540 600 none).isSome = true ∧
    processInvitee exDbInvite exMNew 10 540 600 0 0 "i9" "b@x.com" =
      ({ email := "b@x.com", status := "conflict detected" }, exDbInvite, none) :=
  ⟨by decide, by decide,
   invite_conflict_blocks_creation exDbInvite exMNew 10 540 600 0 0 "i9" "b@x.com"
     { id := "b1", email := "b@x.com", availability := [] } (by decide) (by decide)⟩

/-- C6 counterexample: updating a previously-absent day with
`isAvailable: true` and no slots array stores the day as available with an
empty slot list — "available but no slots" does occur as a stored state,
with no all-day slot synthesized. -/
theorem availability_invariant_counterexample :
    updateDayAvailability exUserAvail "Monday" (some true) none =
      DayResult.ok { id := "u1", email := "u@x.com",
                     availability := [{ day := "Monday", isAvailable := true,
                                        slots := [] }] } ∧
    availableNoSlots { day := "Monday", isAvailable := true, slots := [] } = true := by
  decide

/-- C6 (amended): per-day updates normalize only partially.  When
`isAvailable` is explicitly false the stored day is cleared (empty slots);
when `isAvailable` is explicitly true together with a slots array, the
stored day is available and never slotless (an all-day slot is synthesized
when nothing valid remains).  But the bulk setter stores the
client-provided list verbatim with no normalization, and a per-day update
with `isAvailable : true` and no slots array can store an available day
with an empty slot list, so "available but no slots" can occur as a stored
state. -/
theorem day_availability_normalization (u : User) (day : String)
    (hday : validDays.contains day = true) :
    (∀ slots, ∃ u1, updateDayAvailability u day (some false) slots = DayResult.ok u1 ∧
      u1.availability.find? (fun e => e.day == day) =
        some { day := day, isAvailable := false, slots := [] }) ∧
    (∀ l, ∃ u1, updateDayAvailability u day (some true) (some l) = DayResult.ok u1 ∧
      ∀ e, u1.availability.find? (fun e2 => e2.day == day) = some e →
        e.isAvailable = true ∧ e.slots ≠ []) ∧
    (∀ l, (updateAvailability u l).availability = l) := by
  refine ⟨?_, ?_, fun l => rfl⟩
  · intro slots
    unfold updateDayAvailability
    rw [if_neg (by rw [hday]; decide)]
    refine ⟨_, rfl, ?_⟩
    generalize u.availability = l2
    induction l2 with
    | nil =>
      show List.find? (fun e2 : DayAvailability => e2.day == day)
          [{ day := day, isAvailable := false, slots := [] }] =
        some { day := day, isAvailable := false, slots := [] }
      exact find?_cons_hit _ _ [] (beq_self_eq_true day)
    | cons a t ih =>
      simp only [upsertDay]
      by_cases hd : (a.day == day) = true
      · rw [if_pos hd]
        have hed : a.day = day := beq_iff_eq.mp hd
        show List.find? (fun e2 : DayAvailability => e2.day == day)
            ({ day := a.day, isAvailable := false, slots := [] } :: t) =
          some { day := day, isAvailable := false, slots := [] }
        rw [find?_cons_hit (fun e2 : DayAvailability => e2.day == day)
          { day := a.day, isAvailable := false, slots := [] } t hd]
        rw [hed]
      · rw [if_neg hd]
        rw [find?_cons_skip (fun e2 : DayAvailability => e2.day == day) a _
          (Bool.eq_false_iff.mpr hd)]
        exact ih
  · intro l
    unfold updateDayAvailability
    rw [if_neg (by rw [hday]; decide)]
    refine ⟨_, rfl, ?_⟩
    have hvalE : (validatedSlotsFor (some true) (some l)).isEmpty = false := by
      unfold validatedSlotsFor
      dsimp only
      cases hne : (normalizeSlots l).isEmpty with
      | true => rfl
      | false => exact hne
    have hval : validatedSlotsFor (some true) (some l) ≠ [] := by
      intro hnil
      rw [hnil] at hvalE
      simp at hvalE
    intro e
    generalize u.availability = l2
    induction l2 with
    | nil =>
      intro he
      have he2 : List.find? (fun e2 : DayAvailability => e2.day == day)
          [{ day := day, isAvailable := true,
             slots := validatedSlotsFor (some true) (some l) }] = some e := he
      rw [find?_cons_hit (fun e2 : DayAvailability => e2.day == day)
        { day := day, isAvailable := true,
          slots := validatedSlotsFor (some true) (some l) } []
        (beq_self_eq_true day)] at he2
      have hee := Option.some.inj he2
      rw [← hee]
      exact ⟨rfl, hval⟩
    | cons a t ih =>
      simp only [upsertDay]
      by_cases hd : (a.day == day) = true
      · rw [if_pos hd]
        intro he
        rw [hvalE] at he
        have he2 : List.find? (fun e2 : DayAvailability => e2.day == day)
            ({ day := a.day, isAvailable := true,
               slots := validatedSlotsFor (some true) (some l) } :: t) =
            some e := he
        rw [find?_cons_hit (fun e2 : DayAvailability => e2.day == day)
          { day := a.day, isAvailable := true,
            slots := validatedSlotsFor (some true) (some l) } t hd] at he2
        have hee := Option.some.inj he2
        rw [← hee]
        exact ⟨rfl, hval⟩
      · rw [if_neg hd]
        intro he
        rw [find?_cons_skip (fun e2 : DayAvailability => e2.day == day) a _
          (Bool.eq_false_iff.mpr hd)] at he
        exact ih he

/-- Witness for C6's amended normalization at a fresh user and Monday. -/
theorem day_availability_normalization_witness :
    validDays.contains "Monday" = true ∧
    ((∀ slots, ∃ u1,
        updateDayAvailability exUserAvail "Monday" (some false) slots =
          DayResult.ok u1 ∧
        u1.availability.find? (fun e => e.day == "Monday") =
          some { day := "Monday", isAvailable := false, slots := [] }) ∧
     (∀ l, ∃ u1,
        updateDayAvailability exUserAvail "Monday" (some true) (some l) =
          DayResult.ok u1 ∧
        ∀ e, u1.availability.find? (fun e2 => e2.day == "Monday") = some e →
          e.isAvailable = true ∧ e.slots ≠ []) ∧
     (∀ l, (updateAvailability exUserAvail l).availability = l)) :=
  ⟨by decide, day_availability_normalization exUserAvail "Monday" (by decide)⟩

/-- C4 counterexample: user u1 holds a still-pending Invitation (to a
non-past meeting they are not yet a participant of), yet the
mutation-triggered rebuild `updateUserBookings` stores an empty pending
list — the rebuild never appends invitation-derived pending entries. -/
theorem rebuild_ignores_invitations_counterexample :
    (updateUserBookings exDbInv "u1" 0 0).1 =
      some { userId := "u1", upcomingMeetings := [], pendingMeetings := [],
             canceledMeetings := [], pastMeetings := [] } ∧
    specQualifyingInvitations exDbInv exInvitee 0 0 = [exPendingInv] ∧
    exInvitee.id = "u1" := by
  decide

/-- C4 (amended): only the explicit refresh endpoint appends
invitation-derived pending entries: `refreshBookings` stores, as the whole
pending list, exactly one entry carrying the Invitation id for each
still-pending Invitation addressed to the user by id or email whose linked
meeting exists and is not past; the mutation-triggered rebuild
`updateUserBookings` derives its pending entries solely from embedded
participant records and appends no invitation-derived entries (none of its
entries carries an invitation id). -/
theorem refresh_appends_invitation_pendings (db : DB) (u : User) (nD nM : Nat)
    (b : Booking) (hb : (updateUserBookings db u.id nD nM).1 = some b) :
    (∃ rb, (refreshBookings db u nD nM).bookings.find?
        (fun x => x.userId == u.id) = some rb ∧
      rb.pendingMeetings.map (fun it => it.invitationId) =
        (specQualifyingInvitations db u nD nM).map (fun inv => some inv.id)) ∧
    (∀ it ∈ b.pendingMeetings, it.invitationId = none) := by
  constructor
  · refine ⟨refreshComputeBooking db u nD nM, ?_, ?_⟩
    · show (saveBooking db.bookings (refreshComputeBooking db u nD nM)).find?
          (fun x => x.userId == u.id) = some (refreshComputeBooking db u nD nM)
      exact saveBooking_self_find db.bookings (refreshComputeBooking db u nD nM)
    · show (invitationPendingItems db u nD nM).map (fun it => it.invitationId) =
        (specQualifyingInvitations db u nD nM).map (fun inv => some inv.id)
      exact pending_items_ids_aux db u nD nM db.invitations
  · intro it hit
    unfold updateUserBookings at hb
    cases hu : findUserById db u.id with
    | none => rw [hu] at hb; simp at hb
    | some user =>
      rw [hu] at hb
      dsimp only at hb
      have hbe := Option.some.inj hb
      rw [← hbe] at hit
      unfold computeBooking at hit
      dsimp only at hit
      rcases List.mem_map.mp hit with ⟨x, hx, rfl⟩
      have hx2 := (List.mem_filter.mp hx).1
      rcases List.mem_filterMap.mp hx2 with ⟨mm, _, hfm⟩
      exact bucketOfMeeting_invitationId u.id user.email nD nM mm x hfm

/-- Witness for C4's amended pending-list characterization at the fixture
store: the refresh stores exactly the invitation-derived entry while the
mutation-triggered rebuild stored none. -/
theorem refresh_appends_invitation_pendings_witness :
    (updateUserBookings exDbInv exInvitee.id 0 0).1 =
      some { userId := "u1", upcomingMeetings := [], pendingMeetings := [],
             canceledMeetings := [], pastMeetings := [] } ∧
    ((∃ rb, (refreshBookings exDbInv exInvitee 0 0).bookings.find?
        (fun x => x.userId == exInvitee.id) = some rb ∧
      rb.pendingMeetings.map (fun it => it.invitationId) =
        (specQualifyingInvitations exDbInv exInvitee 0 0).map
          (fun inv => some inv.id)) ∧
     (∀ it ∈ ({ userId := "u1", upcomingMeetings := [], pendingMeetings := [],
                canceledMeetings := [], pastMeetings := [] } : Booking).pendingMeetings,
        it.invitationId = none)) :=
  ⟨by decide,
   refresh_appends_invitation_pendings exDbInv exInvitee 0 0
     { userId := "u1", upcomingMeetings := [], pendingMeetings := [],
       canceledMeetings := [], pastMeetings := [] } (by decide)⟩

theorem computeBooking_setBookings (db : DB) (l : List Booking) (uid em : String)
    (nD nM : Nat) :
    computeBooking { db with bookings := l } uid em nD nM =
      computeBooking db uid em nD nM := rfl

/-- C7: the mutation-triggered booking rebuild is idempotent — with the
store and the clock fixed, rebuilding twice yields exactly the same saved
booking and the same store as rebuilding once — and it has no side effect
beyond replacing the stored projection: users, meetings and invitations are
untouched. -/
theorem rebuild_idempotent (db : DB) (uid : String) (nD nM : Nat) :
    updateUserBookings (updateUserBookings db uid nD nM).2 uid nD nM =
      updateUserBookings db uid nD nM ∧
    (updateUserBookings db uid nD nM).2.users = db.users ∧
    (updateUserBookings db uid nD nM).2.meetings = db.meetings ∧
    (updateUserBookings db uid nD nM).2.invitations = db.invitations := by
  cases hu : findUserById db uid with
  | none =>
    simp only [updateUserBookings, hu]
    exact ⟨trivial, trivial, trivial, trivial⟩
  | some user =>
    simp only [updateUserBookings, hu, findUserById_setBookings,
      computeBooking_setBookings, saveBooking_idem]
    exact ⟨trivial, trivial, trivial, trivial⟩

end SchedulingEngine
